import Mathlib

/-!
Verification development for the `llm_packages` repository
(`llm_provider.py`, `prompt_handler.py`).

Python strings are modelled as `List Char` (`PyStr`), Python ints as
`Int` (token counts, which are lengths, live in `Nat` and are cast where
they are compared with `max_tokens`).  Fallible Python code is modelled
with `Except PyErr`.  The two LLM backends are external collaborators
and are abstracted as total oracles; the number and order of gateway
calls made by the processing strategies is made observable by returning,
next to the result, the list of prompts passed to the gateway.
-/

/-- Python `str` values, modelled as their character lists. -/
abbrev PyStr := List Char

/-- Convenience: the character list of a string literal. -/
def pys (s : String) : PyStr := s.data

/-- The ASCII whitespace characters recognised by Python `str.split()`
(Python also treats some non-ASCII Unicode code points as whitespace;
nothing below depends on the exact whitespace set beyond the membership
of `'\n'`). -/
def isPySpace (c : Char) : Bool :=
  c = ' ' || c = '\t' || c = '\n' || c = '\r' || c = '\x0b' || c = '\x0c'

/-- Python `text.split()` (no separator argument): the maximal runs of
non-whitespace characters, in order, with no empty pieces. -/
def pySplitWs : List Char → List PyStr
  | [] => []
  | [c] => if isPySpace c then [] else [[c]]
  | c :: d :: cs =>
      if isPySpace c then pySplitWs (d :: cs)
      else if isPySpace d then [c] :: pySplitWs cs
      else
        match pySplitWs (d :: cs) with
        | t :: ts => (c :: t) :: ts
        | [] => [[c]]

/-- `LLMProvider.count_tokens` (llm_provider.py lines 237-247):
`len(text.split())`. -/
def count_tokens (text : PyStr) : Nat :=
  (pySplitWs text).length

/-- Python `"\n".join(parts)`. -/
def pyJoinNl : List PyStr → PyStr
  | [] => []
  | [x] => x
  | x :: y :: xs => x ++ '\n' :: pyJoinNl (y :: xs)

/-- Python `text.split("\n")` (explicit separator: empty pieces kept,
`"".split("\n") == [""]`). -/
def pySplitOnNl : List Char → List PyStr
  | [] => [[]]
  | c :: cs =>
      if c = '\n' then [] :: pySplitOnNl cs
      else
        match pySplitOnNl cs with
        | t :: ts => (c :: t) :: ts
        | [] => [[c]]

/-- The Python exceptions that the modelled code can raise. -/
inductive PyErr where
  | keyError (field : String)
  | indexError
  | valueError (msg : String)
  | typeError (msg : String)
  | attributeError (attr : String)
deriving DecidableEq

/-- Model of CPython `str.format` restricted to the template language the
repository uses: literal text, `{{`/`}}` escapes, `{}` auto-numbered
positional fields and simple named fields (no conversions, format specs,
numeric indices, attribute or item access).  `mode = some acc` means the
scanner is inside a replacement field and has read the name characters
`acc`; `auto` is the auto-numbering counter for `{}` fields.  A named
field absent from `kw` raises `KeyError` (the spec's
`MissingFieldError`); a positional field beyond `pos` raises
`IndexError`; an unterminated or malformed field raises `ValueError`. -/
def pyFormatAux (pos : List PyStr) (kw : List (String × PyStr)) :
    List Char → Nat → Option (List Char) → Except PyErr PyStr
  | [], _, none => .ok []
  | [], _, some _ => .error (.valueError "expected closing brace before end of string")
  | c :: rest, auto, some acc =>
      if c = '}' then
        let name := String.mk acc
        if name = "" then
          match pos.get? auto with
          | some v =>
              match pyFormatAux pos kw rest (auto + 1) none with
              | .ok t => .ok (v ++ t)
              | .error e => .error e
          | none => .error .indexError
        else
          match kw.lookup name with
          | some v =>
              match pyFormatAux pos kw rest auto none with
              | .ok t => .ok (v ++ t)
              | .error e => .error e
          | none => .error (.keyError name)
      else if c = '{' then .error (.valueError "unexpected brace in field name")
      else pyFormatAux pos kw rest auto (some (acc ++ [c]))
  | c :: rest, auto, none =>
      if c = '{' then
        match rest with
        | [] => .error (.valueError "expected closing brace before end of string")
        | d :: rest' =>
            if d = '{' then
              match pyFormatAux pos kw rest' auto none with
              | .ok t => .ok ('{' :: t)
              | .error e => .error e
            else pyFormatAux pos kw (d :: rest') auto (some [])
      else if c = '}' then
        match rest with
        | [] => .error (.valueError "single brace encountered in format string")
        | d :: rest' =>
            if d = '}' then
              match pyFormatAux pos kw rest' auto none with
              | .ok t => .ok ('}' :: t)
              | .error e => .error e
            else .error (.valueError "single brace encountered in format string")
      else
        match pyFormatAux pos kw rest auto none with
        | .ok t => .ok (c :: t)
        | .error e => .error e

/-- A row of a pandas DataFrame after `_convert_to_dicts`
(llm_provider.py lines 98-113): an ordered field-name/value map. -/
abbrev Record := List (String × PyStr)

/-- `PromptHandler.generate_prompt_df` (prompt_handler.py lines 25-35):
`self.prompt_template.format(**kwargs)`. -/
def generate_prompt_df (tmpl : PyStr) (kwargs : Record) : Except PyErr PyStr :=
  pyFormatAux [] kwargs tmpl 0 none

/-- `PromptHandler.generate_prompt_srs` (prompt_handler.py lines 37-47):
`self.prompt_template.format(args)` — one positional argument. -/
def generate_prompt_srs (tmpl : PyStr) (args : PyStr) : Except PyErr PyStr :=
  pyFormatAux [args] [] tmpl 0 none

/-- The named fields referenced by a template, in order of occurrence,
mirroring the scan of `pyFormatAux`; `none` when the template is
malformed or uses a positional `{}` field (outside the named-field
fragment this development reasons about). -/
def templateFieldsAux : List Char → Option (List Char) → Option (List String)
  | [], none => some []
  | [], some _ => none
  | c :: rest, some acc =>
      if c = '}' then
        let name := String.mk acc
        if name = "" then none
        else
          match templateFieldsAux rest none with
          | some fs => some (name :: fs)
          | none => none
      else if c = '{' then none
      else templateFieldsAux rest (some (acc ++ [c]))
  | c :: rest, none =>
      if c = '{' then
        match rest with
        | [] => none
        | d :: rest' =>
            if d = '{' then templateFieldsAux rest' none
            else templateFieldsAux (d :: rest') (some [])
      else if c = '}' then
        match rest with
        | [] => none
        | d :: rest' =>
            if d = '}' then templateFieldsAux rest' none
            else none
      else templateFieldsAux rest none

/-- The named fields referenced by a well-formed all-named-fields
template (see `templateFieldsAux`). -/
def templateFields (tmpl : PyStr) : Option (List String) :=
  templateFieldsAux tmpl none

/-- The loop state of `make_chunks` (llm_provider.py lines 196-198):
the emitted chunks, the prompts of the running chunk, and the running
token total. -/
structure PackState where
  chunks : List PyStr
  sub_chunks : List PyStr
  token : Nat

/-- One iteration of the `for prompt in prompts` loop of `make_chunks`
(llm_provider.py lines 200-208).  Note the running chunk is flushed even
when it is empty, which happens when the very first prompt (or, after a
flush, a run of zero-token prompts followed by an oversized one) fails
the budget test. -/
def make_chunks_step (max_tokens : Int) (st : PackState) (prompt : PyStr) : PackState :=
  let prompt_len := count_tokens prompt
  if ((prompt_len + st.token : Nat) : Int) ≤ max_tokens then
    { st with sub_chunks := st.sub_chunks ++ [prompt], token := st.token + prompt_len }
  else
    { chunks := st.chunks ++ [pyJoinNl st.sub_chunks]
      sub_chunks := [prompt]
      token := prompt_len }

/-- The loop state after processing all prompts. -/
def make_chunks_state (max_tokens : Int) (prompts : List PyStr) : PackState :=
  prompts.foldl (make_chunks_step max_tokens) ⟨[], [], 0⟩

/-- The value of the local variable `chunks` when `make_chunks`
(llm_provider.py lines 185-212) reaches its end: the loop above followed
by the final `if sub_chunks: chunks.append("\n".join(sub_chunks))`. -/
def make_chunks_chunks (prompts : List PyStr) (max_tokens : Int) : List PyStr :=
  let st := make_chunks_state max_tokens prompts
  match st.sub_chunks with
  | [] => st.chunks
  | _ :: _ => st.chunks ++ [pyJoinNl st.sub_chunks]

/-- The value of a call to `make_chunks` itself: the Python function
builds the list `make_chunks_chunks prompts max_tokens` in its local
variable `chunks` but has no `return` statement, so the call evaluates
to `None`. -/
def make_chunks (prompts : List PyStr) (max_tokens : Int) : Option (List PyStr) :=
  let _ := make_chunks_chunks prompts max_tokens
  none

/-- The two input shapes accepted by the processing strategies, after
`_convert_to_dicts` (llm_provider.py lines 98-113): a DataFrame becomes
a list of records, a Series becomes a list of scalar values.  Any other
input raises `TypeError` in the strategies and is outside this model. -/
inductive PdInput where
  | df (rows : List Record)
  | srs (vals : List PyStr)

/-- The list comprehension
`[self.prompt_handler.generate_prompt_df(**row) for row in rows]`:
renders every record, propagating the first rendering error. -/
def renderAllDf (tmpl : PyStr) : List Record → Except PyErr (List PyStr)
  | [] => .ok []
  | r :: rs =>
      match generate_prompt_df tmpl r with
      | .error e => .error e
      | .ok p =>
          match renderAllDf tmpl rs with
          | .error e => .error e
          | .ok ps => .ok (p :: ps)

/-- The list comprehension
`[self.prompt_handler.generate_prompt_srs(row) for row in rows]`. -/
def renderAllSrs (tmpl : PyStr) : List PyStr → Except PyErr (List PyStr)
  | [] => .ok []
  | v :: vs =>
      match generate_prompt_srs tmpl v with
      | .error e => .error e
      | .ok p =>
          match renderAllSrs tmpl vs with
          | .error e => .error e
          | .ok ps => .ok (p :: ps)

/-- Rendering of every row of either input shape, as performed at the
start of each processing strategy. -/
def renderAll (tmpl : PyStr) : PdInput → Except PyErr (List PyStr)
  | .df rows => renderAllDf tmpl rows
  | .srs vals => renderAllSrs tmpl vals

/-- Total rendering helper used to state theorems: the rendered prompt
of a record, meaningful when `generate_prompt_df` succeeds. -/
def renderedDf (tmpl : PyStr) (r : Record) : PyStr :=
  match generate_prompt_df tmpl r with
  | .ok p => p
  | .error _ => []

/-- Boolean success test for `Except`. -/
def exceptIsOk {ε α : Type} : Except ε α → Bool
  | .ok _ => true
  | .error _ => false

/-- The row loop of `process_row_by_row` on the DataFrame branch
(llm_provider.py lines 127-133): for each row render a prompt, query
the gateway, collect the responses.  The gateway is the abstract oracle
`query`; the second component of the result is the ordered list of
prompts sent to it (one entry per issued gateway call). -/
def rowLoopDf (tmpl : PyStr) (query : PyStr → PyStr) :
    List Record → Except PyErr (List PyStr) × List PyStr
  | [] => (.ok [], [])
  | r :: rs =>
      match generate_prompt_df tmpl r with
      | .error e => (.error e, [])
      | .ok prompt =>
          let res := query prompt
          match rowLoopDf tmpl query rs with
          | (.ok others, qlog) => (.ok (res :: others), prompt :: qlog)
          | (.error e, qlog) => (.error e, prompt :: qlog)

/-- The row loop of `process_row_by_row` on the Series branch
(llm_provider.py lines 134-140). -/
def rowLoopSrs (tmpl : PyStr) (query : PyStr → PyStr) :
    List PyStr → Except PyErr (List PyStr) × List PyStr
  | [] => (.ok [], [])
  | v :: vs =>
      match generate_prompt_srs tmpl v with
      | .error e => (.error e, [])
      | .ok prompt =>
          let res := query prompt
          match rowLoopSrs tmpl query vs with
          | (.ok others, qlog) => (.ok (res :: others), prompt :: qlog)
          | (.error e, qlog) => (.error e, prompt :: qlog)

/-- `LLMProvider.process_row_by_row` (llm_provider.py lines 115-142). -/
def process_row_by_row (tmpl : PyStr) (query : PyStr → PyStr) :
    PdInput → Except PyErr (List PyStr) × List PyStr
  | .df rows => rowLoopDf tmpl query rows
  | .srs vals => rowLoopSrs tmpl query vals

/-- `LLMProvider.process_in_one_big_chunk` (llm_provider.py lines
144-170).  Both branches render every row, join the rendered prompts
with newlines, and raise `ValueError` when the joined string exceeds
`max_tokens`.  On the non-oversized path the source executes
`return self.querry(prompts)`: the class defines no attribute `querry`
(the method is named `query`), so Python raises `AttributeError` and no
gateway call is ever made — hence the empty query log on every path. -/
def process_in_one_big_chunk (tmpl : PyStr) (max_tokens : Int) :
    PdInput → Except PyErr PyStr × List PyStr
  | input =>
      match renderAll tmpl input with
      | .error e => (.error e, [])
      | .ok formated_rows =>
          let prompts := pyJoinNl formated_rows
          if ((count_tokens prompts : Nat) : Int) > max_tokens then
            (.error (.valueError "Total prompt exceeds the maximum token limit"), [])
          else
            (.error (.attributeError "querry"), [])

/-- `LLMProvider.process_in_chunks` (llm_provider.py lines 172-235).
DataFrame branch: render all rows, call `make_chunks(prompts,
max_tokens)` — which returns `None` (missing `return`) — and then
iterate over it, raising `TypeError`.  Were a chunk list ever returned,
the loop body `result = self.query(chunk); result.append(result)` would
query once and then raise `AttributeError` because strings have no
`append` (modelled in the dead `some` branch).  Series branch: render
all rows, then call `make_chunks(prompts)` with one argument instead of
two, raising `TypeError` before any gateway call. -/
def process_in_chunks (tmpl : PyStr) (max_tokens : Int) (query : PyStr → PyStr) :
    PdInput → Except PyErr (List PyStr) × List PyStr
  | .df rows =>
      match renderAllDf tmpl rows with
      | .error e => (.error e, [])
      | .ok prompts =>
          match make_chunks prompts max_tokens with
          | none => (.error (.typeError "NoneType object is not iterable"), [])
          | some chunks =>
              match chunks with
              | [] => (.ok [], [])
              | c :: _ => (.error (.attributeError "append"), [query c])
  | .srs vals =>
      match renderAllSrs tmpl vals with
      | .error e => (.error e, [])
      | .ok _ =>
          (.error (.typeError "make_chunks missing 1 required positional argument"), [])

/-- The value stored by `pipeline('text-generation', model=hf_model)`:
an opaque handle on the loaded local generation pipeline.  As a Python
object it is always truthy. -/
inductive PipeVal where
  | pipeline (model : String)

/-- The state of an `LLMProvider` instance.  `attrs` models the
dynamically assigned pipeline attribute: `__init__` stores the pipeline
under the (misspelled) name `hf_pipline`, while `_query_huggingface`
reads the name `hf_pipeline`; reading a name absent from `attrs` raises
`AttributeError`, as `getattr` does on a Python object. -/
structure LLMProviderState where
  provider : String
  api_key : PyStr
  prompt_template : PyStr
  max_tokens : Int
  hf_model : Option String
  attrs : List (String × PipeVal)

/-- Python truthiness of the optional `hf_model` argument (`None` and
the empty string are falsy). -/
def optStrTruthy : Option String → Bool
  | none => false
  | some s => s ≠ ""

/-- `LLMProvider.__init__` (llm_provider.py lines 25-46): stores the
configuration and, when the provider is `"huggingface"` and `hf_model`
is truthy, eagerly builds the pipeline — assigning it to the attribute
`hf_pipline` (line 46; note the missing `e`). -/
def LLMProvider_init (provider : String) (api_key : PyStr) (prompt_template : PyStr)
    (max_tokens : Int) (hf_model : Option String) : LLMProviderState :=
  { provider := provider
    api_key := api_key
    prompt_template := prompt_template
    max_tokens := max_tokens
    hf_model := hf_model
    attrs :=
      if provider = "huggingface" && optStrTruthy hf_model then
        [("hf_pipline", .pipeline (hf_model.getD ""))]
      else [] }

/-- `LLMProvider._query_huggingface` (llm_provider.py lines 84-96).
The guard `if not self.hf_pipeline:` reads the attribute `hf_pipeline`,
which no code path ever assigns (`__init__` assigns `hf_pipline`), so
the access raises `AttributeError` before the truthiness test; the
"pipeline is not initialized" `ValueError` branch is unreachable.  The
second component is the list of prompts passed to the local pipeline
oracle `hfOracle`. -/
def query_huggingface (st : LLMProviderState) (hfOracle : PyStr → PyStr)
    (prompt : PyStr) : Except PyErr PyStr × List PyStr :=
  match st.attrs.lookup "hf_pipeline" with
  | none => (.error (.attributeError "hf_pipeline"), [])
  | some _ =>
      (.ok (hfOracle prompt), [prompt])

/-- `LLMProvider.query` (llm_provider.py lines 48-65): dispatch on the
provider name.  The remote completion backend is the abstract oracle
`openaiOracle`. -/
def LLMProvider_query (st : LLMProviderState) (openaiOracle : PyStr → PyStr)
    (hfOracle : PyStr → PyStr) (prompt : PyStr) : Except PyErr PyStr × List PyStr :=
  if st.provider = "openai" then
    (.ok (openaiOracle prompt), [prompt])
  else if st.provider = "huggingface" then
    query_huggingface st hfOracle prompt
  else
    (.error (.valueError ("Unsupported provider: " ++ st.provider)), [])

/-- Loop invariant of `make_chunks` used for the chunk/prompt
correspondence: after processing the prompts `done`, the emitted chunks
are the newline-joins of a list of non-empty groups whose concatenation,
followed by the running chunk, is exactly `done`; the running token
total is the total estimate of the running chunk; and the running chunk
is empty only before the first prompt (this last component relies on
every processed prompt fitting the budget on its own, which is the
hypothesis under which the invariant is preserved). -/
def packInv1 (st : PackState) (done : List PyStr) : Prop :=
  ∃ groups : List (List PyStr),
    st.chunks = groups.map pyJoinNl ∧
    (∀ g ∈ groups, g ≠ []) ∧
    groups.flatten ++ st.sub_chunks = done ∧
    st.token = (st.sub_chunks.map count_tokens).sum ∧
    (st.sub_chunks = [] → done = [])

/-- Loop invariant of `make_chunks` used for the budget bound: every
emitted chunk either fits the budget or is a single processed prompt
that alone exceeds it, the running token total is the total estimate of
the running chunk, and the running chunk itself fits the budget unless
it is a single oversized prompt. -/
def packInv2 (b : Int) (st : PackState) (done : List PyStr) : Prop :=
  (∀ c ∈ st.chunks,
      (count_tokens c : Int) ≤ b ∨ ∃ p ∈ done, c = p ∧ b < (count_tokens p : Int)) ∧
  st.token = (st.sub_chunks.map count_tokens).sum ∧
  ((st.token : Int) ≤ b ∨ ∃ p ∈ done, st.sub_chunks = [p] ∧ b < (count_tokens p : Int))

/-! ### Lemmas about the string primitives -/

/-- Leading whitespace is dropped by `pySplitWs`. -/
theorem pySplitWs_space_cons (w : Char) (hw : isPySpace w = true) (b : List Char) :
    pySplitWs (w :: b) = pySplitWs b := by
  cases b with
  | nil => simp [pySplitWs, hw]
  | cons e bs => simp [pySplitWs, hw]

/-- A list starting with a non-whitespace character splits into at least
one piece. -/
theorem pySplitWs_cons_ne_nil :
    ∀ (c : Char) (cs : List Char), isPySpace c = false → pySplitWs (c :: cs) ≠ []
  | c, [], h => by simp [pySplitWs, h]
  | c, d :: cs, h => by
      by_cases hd : isPySpace d = true
      · simp [pySplitWs, h, hd]
      · have hne := pySplitWs_cons_ne_nil d cs (by simpa using hd)
        obtain ⟨t, ts, ht⟩ := List.exists_cons_of_ne_nil hne
        simp [pySplitWs, h, hd, ht]

/-- Splitting on whitespace distributes over a whitespace separator:
the pieces of `a ++ w :: b` are the pieces of `a` followed by the pieces
of `b`. -/
theorem pySplitWs_append (w : Char) (hw : isPySpace w = true) :
    ∀ (a b : List Char), pySplitWs (a ++ w :: b) = pySplitWs a ++ pySplitWs b
  | [], b => by
      rw [List.nil_append, pySplitWs_space_cons w hw b]
      simp [pySplitWs]
  | [c], b => by
      have h1 : ([c] ++ w :: b) = c :: w :: b := rfl
      rw [h1]
      by_cases hc : isPySpace c = true
      · rw [pySplitWs_space_cons c hc, pySplitWs_space_cons w hw]
        simp [pySplitWs, hc]
      · simp [pySplitWs, hc, hw]
  | c :: d :: a', b => by
      have h1 : ((c :: d :: a') ++ w :: b) = c :: d :: (a' ++ w :: b) := rfl
      rw [h1]
      by_cases hc : isPySpace c = true
      · have hd2 : (d :: (a' ++ w :: b)) = ((d :: a') ++ w :: b) := rfl
        simp only [pySplitWs, hc, if_true]
        rw [hd2, pySplitWs_append w hw (d :: a') b]
      · by_cases hd : isPySpace d = true
        · simp only [pySplitWs, hc, hd, if_false, if_true]
          rw [pySplitWs_append w hw a' b]
          simp [hc, hd]
        · have hd2 : (d :: (a' ++ w :: b)) = ((d :: a') ++ w :: b) := rfl
          have hih := pySplitWs_append w hw (d :: a') b
          have hne := pySplitWs_cons_ne_nil d a' (by simpa using hd)
          obtain ⟨t, ts, ht⟩ := List.exists_cons_of_ne_nil hne
          simp only [pySplitWs, hc, hd, if_false]
          rw [hd2, hih, ht]
          simp

/-- `count_tokens` of a newline-join is the sum of the `count_tokens`
of the parts: the `"\n"` separator is whitespace, so no two word runs
merge across a part boundary and no separator adds a word. -/
theorem count_tokens_join :
    ∀ xs : List PyStr, count_tokens (pyJoinNl xs) = (xs.map count_tokens).sum
  | [] => rfl
  | [x] => by simp [pyJoinNl]
  | x :: y :: xs => by
      have h := count_tokens_join (y :: xs)
      simp only [pyJoinNl, count_tokens,
        pySplitWs_append '\n' (by decide) x (pyJoinNl (y :: xs)),
        List.length_append, List.map_cons, List.sum_cons] at h ⊢
      omega

/-- Splitting a newline-free string on newlines returns it whole. -/
theorem pySplitOnNl_nlfree : ∀ p : PyStr, '\n' ∉ p → pySplitOnNl p = [p]
  | [], _ => rfl
  | c :: p', h => by
      have hc : ¬(c = '\n') := fun hcc => h (hcc ▸ List.mem_cons_self c p')
      have hih := pySplitOnNl_nlfree p' (fun hm => h (List.mem_cons_of_mem c hm))
      simp [pySplitOnNl, hc, hih]

/-- Splitting `p ++ "\n" ++ rest` on newlines when `p` is newline-free
yields `p` and then the pieces of `rest`. -/
theorem pySplitOnNl_append :
    ∀ (p rest : PyStr), '\n' ∉ p → pySplitOnNl (p ++ '\n' :: rest) = p :: pySplitOnNl rest
  | [], rest, _ => by simp [pySplitOnNl]
  | c :: p', rest, h => by
      have hc : ¬(c = '\n') := fun hcc => h (hcc ▸ List.mem_cons_self c p')
      have hih := pySplitOnNl_append p' rest (fun hm => h (List.mem_cons_of_mem c hm))
      simp [pySplitOnNl, hc, hih]

/-- Re-splitting a newline-join of non-empty newline-free parts recovers
the parts. -/
theorem pySplitOnNl_join :
    ∀ g : List PyStr, g ≠ [] → (∀ x ∈ g, '\n' ∉ x) → pySplitOnNl (pyJoinNl g) = g
  | [], hne, _ => absurd rfl hne
  | [x], _, hnl => by
      simp only [pyJoinNl]
      exact pySplitOnNl_nlfree x (hnl x (List.mem_singleton.2 rfl))
  | x :: y :: g', _, hnl => by
      have hih := pySplitOnNl_join (y :: g') (by simp) (fun z hz => hnl z (List.mem_cons_of_mem x hz))
      simp only [pyJoinNl]
      rw [pySplitOnNl_append x (pyJoinNl (y :: g')) (hnl x (List.mem_cons_self x _)), hih]

/-- Re-splitting each chunk of a list of newline-joins and concatenating
recovers the concatenation of the groups. -/
theorem flatMap_split_join :
    ∀ gs : List (List PyStr), (∀ g ∈ gs, g ≠ []) → (∀ g ∈ gs, ∀ x ∈ g, '\n' ∉ x) →
      (gs.map pyJoinNl).flatMap pySplitOnNl = gs.flatten
  | [], _, _ => rfl
  | g :: gs', hne, hnl => by
      have hih := flatMap_split_join gs' (fun h hm => hne h (List.mem_cons_of_mem g hm))
        (fun h hm => hnl h (List.mem_cons_of_mem g hm))
      simp only [List.map_cons, List.flatMap_cons, List.flatten_cons, hih]
      rw [pySplitOnNl_join g (hne g (List.mem_cons_self g _)) (hnl g (List.mem_cons_self g _))]

/-! ### The `make_chunks` loop invariants -/

/-- An invariant preserved by every loop iteration (under a per-prompt
side condition `Q`) holds of the loop state after the whole run. -/
theorem make_chunks_foldl_inv (b : Int) (Q : PyStr → Prop)
    (P : PackState → List PyStr → Prop)
    (hstep : ∀ st done p, Q p → P st done → P (make_chunks_step b st p) (done ++ [p])) :
    ∀ (rest : List PyStr) (st : PackState) (done : List PyStr),
      (∀ p ∈ rest, Q p) → P st done →
      P (rest.foldl (make_chunks_step b) st) (done ++ rest)
  | [], st, done, _, hP => by simpa using hP
  | p :: rest, st, done, hQ, hP => by
      have h1 := hstep st done p (hQ p (List.mem_cons_self p rest)) hP
      have h2 := make_chunks_foldl_inv b Q P hstep rest (make_chunks_step b st p)
        (done ++ [p]) (fun q hq => hQ q (List.mem_cons_of_mem p hq)) h1
      simpa [List.append_assoc] using h2

/-- Reduction of one loop iteration when the prompt fits the running
chunk within the budget. -/
theorem make_chunks_step_fits (b : Int) (st : PackState) (p : PyStr)
    (hc : ((count_tokens p + st.token : Nat) : Int) ≤ b) :
    make_chunks_step b st p
      = { st with sub_chunks := st.sub_chunks ++ [p], token := st.token + count_tokens p } := by
  simp only [make_chunks_step]
  rw [if_pos hc]

/-- Reduction of one loop iteration when the prompt does not fit: the
running chunk is flushed (even when empty) and restarted at the prompt. -/
theorem make_chunks_step_flush (b : Int) (st : PackState) (p : PyStr)
    (hc : ¬ ((count_tokens p + st.token : Nat) : Int) ≤ b) :
    make_chunks_step b st p
      = { chunks := st.chunks ++ [pyJoinNl st.sub_chunks]
          sub_chunks := [p]
          token := count_tokens p } := by
  simp only [make_chunks_step]
  rw [if_neg hc]

/-- `packInv1` is preserved by one iteration, provided the incoming
prompt fits the budget on its own. -/
theorem packInv1_step (b : Int) (st : PackState) (done : List PyStr) (p : PyStr)
    (hfit : (count_tokens p : Int) ≤ b) (h : packInv1 st done) :
    packInv1 (make_chunks_step b st p) (done ++ [p]) := by
  obtain ⟨groups, hchunks, hne, hflat, htok, hemp⟩ := h
  by_cases hc : ((count_tokens p + st.token : Nat) : Int) ≤ b
  · rw [make_chunks_step_fits b st p hc]
    refine ⟨groups, hchunks, hne, ?_, ?_, ?_⟩
    · rw [← List.append_assoc, hflat]
    · simp [htok]
    · simp
  · have htok0 : st.sub_chunks = [] → st.token = 0 := by
      intro hnil
      rw [hnil] at htok
      simpa using htok
    have hsub : st.sub_chunks ≠ [] := by
      intro hnil
      have h0 := htok0 hnil
      apply hc
      omega
    rw [make_chunks_step_flush b st p hc]
    refine ⟨groups ++ [st.sub_chunks], ?_, ?_, ?_, ?_, ?_⟩
    · simp [hchunks]
    · intro g hg
      rcases List.mem_append.1 hg with hg1 | hg2
      · exact hne g hg1
      · have hgs : g = st.sub_chunks := by simpa using hg2
        rw [hgs]; exact hsub
    · rw [← hflat]
      simp [List.append_assoc]
    · simp
    · simp

/-- `packInv2` is preserved by one iteration. -/
theorem packInv2_step (b : Int) (st : PackState) (done : List PyStr)
    (p : PyStr) (h : packInv2 b st done) :
    packInv2 b (make_chunks_step b st p) (done ++ [p]) := by
  obtain ⟨hchunks, htok, hrun⟩ := h
  have hmono : ∀ c : PyStr,
      ((count_tokens c : Int) ≤ b ∨ ∃ q ∈ done, c = q ∧ b < (count_tokens q : Int)) →
      ((count_tokens c : Int) ≤ b ∨ ∃ q ∈ done ++ [p], c = q ∧ b < (count_tokens q : Int)) := by
    intro c hco
    rcases hco with h1 | ⟨q, hq, hcq, hbq⟩
    · exact Or.inl h1
    · exact Or.inr ⟨q, List.mem_append.2 (Or.inl hq), hcq, hbq⟩
  by_cases hc : ((count_tokens p + st.token : Nat) : Int) ≤ b
  · rw [make_chunks_step_fits b st p hc]
    refine ⟨?_, ?_, ?_⟩
    · intro c hcm
      exact hmono c (hchunks c hcm)
    · simp [htok]
    · left
      show ((st.token + count_tokens p : Nat) : Int) ≤ b
      omega
  · rw [make_chunks_step_flush b st p hc]
    refine ⟨?_, ?_, ?_⟩
    · intro c hcm
      rcases List.mem_append.1 hcm with hold | hnew
      · exact hmono c (hchunks c hold)
      · have hcj : c = pyJoinNl st.sub_chunks := by simpa using hnew
        rcases hrun with h1 | ⟨q, hq, hsq, hbq⟩
        · left
          rw [hcj, count_tokens_join, ← htok]
          exact h1
        · right
          refine ⟨q, List.mem_append.2 (Or.inl hq), ?_, hbq⟩
          rw [hcj, hsq]
          rfl
    · simp
    · by_cases hp : (count_tokens p : Int) ≤ b
      · left
        exact hp
      · right
        exact ⟨p, List.mem_append.2 (Or.inr (List.mem_singleton.2 rfl)), rfl,
          lt_of_not_le hp⟩

/-! ### Lemmas about the format scanner -/

/-- One-step unfolding of `templateFieldsAux` in literal mode. -/
theorem templateFieldsAux_none_eq (c : Char) (rest : List Char) :
    templateFieldsAux (c :: rest) none
      = if c = '{' then
          (match rest with
           | [] => none
           | d :: rest' =>
               if d = '{' then templateFieldsAux rest' none
               else templateFieldsAux (d :: rest') (some []))
        else if c = '}' then
          (match rest with
           | [] => none
           | d :: rest' =>
               if d = '}' then templateFieldsAux rest' none
               else none)
        else templateFieldsAux rest none := by
  cases rest <;> rfl

/-- One-step unfolding of `templateFieldsAux` in field mode. -/
theorem templateFieldsAux_some_eq (c : Char) (rest : List Char) (acc : List Char) :
    templateFieldsAux (c :: rest) (some acc)
      = if c = '}' then
          (if String.mk acc = "" then none
           else
             match templateFieldsAux rest none with
             | some fs => some (String.mk acc :: fs)
             | none => none)
        else if c = '{' then none
        else templateFieldsAux rest (some (acc ++ [c])) := rfl

/-- One-step unfolding of `pyFormatAux` in literal mode. -/
theorem pyFormatAux_none_eq (pos : List PyStr) (kw : List (String × PyStr)) (c : Char)
    (rest : List Char) (auto : Nat) :
    pyFormatAux pos kw (c :: rest) auto none
      = if c = '{' then
          (match rest with
           | [] => .error (.valueError "expected closing brace before end of string")
           | d :: rest' =>
               if d = '{' then
                 match pyFormatAux pos kw rest' auto none with
                 | .ok t => .ok ('{' :: t)
                 | .error e => .error e
               else pyFormatAux pos kw (d :: rest') auto (some []))
        else if c = '}' then
          (match rest with
           | [] => .error (.valueError "single brace encountered in format string")
           | d :: rest' =>
               if d = '}' then
                 match pyFormatAux pos kw rest' auto none with
                 | .ok t => .ok ('}' :: t)
                 | .error e => .error e
               else .error (.valueError "single brace encountered in format string"))
        else
          match pyFormatAux pos kw rest auto none with
          | .ok t => .ok (c :: t)
          | .error e => .error e := by
  cases rest <;> rfl

/-- One-step unfolding of `pyFormatAux` in field mode. -/
theorem pyFormatAux_some_eq (pos : List PyStr) (kw : List (String × PyStr)) (c : Char)
    (rest : List Char) (auto : Nat) (acc : List Char) :
    pyFormatAux pos kw (c :: rest) auto (some acc)
      = if c = '}' then
          (if String.mk acc = "" then
             match pos.get? auto with
             | some v =>
                 match pyFormatAux pos kw rest (auto + 1) none with
                 | .ok t => .ok (v ++ t)
                 | .error e => .error e
             | none => .error .indexError
           else
             match kw.lookup (String.mk acc) with
             | some v =>
                 match pyFormatAux pos kw rest auto none with
                 | .ok t => .ok (v ++ t)
                 | .error e => .error e
             | none => .error (.keyError (String.mk acc)))
        else if c = '{' then .error (.valueError "unexpected brace in field name")
        else pyFormatAux pos kw rest auto (some (acc ++ [c])) := rfl

/-- When a template is well formed with only named fields and every
referenced field is present in the keyword map, formatting (with no
positional arguments) succeeds. -/
theorem pyFormat_ok_of_fields (kw : List (String × PyStr)) :
    ∀ (cs : List Char) (mode : Option (List Char)) (fs : List String) (auto : Nat),
      templateFieldsAux cs mode = some fs →
      (∀ f ∈ fs, (kw.lookup f).isSome = true) →
      ∃ s, pyFormatAux [] kw cs auto mode = .ok s
  | [], none, fs, auto, _, _ => ⟨[], rfl⟩
  | [], some acc, fs, auto, hf, _ =>
      Option.noConfusion (show (none : Option (List String)) = some fs from hf)
  | c :: rest, some acc, fs, auto, hf, hall => by
      by_cases hc : c = '}'
      · subst hc
        have hf2 : (if String.mk acc = "" then (none : Option (List String))
            else match templateFieldsAux rest none with
                 | some fs0 => some (String.mk acc :: fs0)
                 | none => none) = some fs := hf
        by_cases hnm : String.mk acc = ""
        · rw [if_pos hnm] at hf2
          exact Option.noConfusion hf2
        · rw [if_neg hnm] at hf2
          cases ht : templateFieldsAux rest none with
          | none =>
              rw [ht] at hf2
              exact Option.noConfusion
                (show (none : Option (List String)) = some fs from hf2)
          | some fs' =>
              rw [ht] at hf2
              have hf3 : some (String.mk acc :: fs') = some fs := hf2
              injection hf3 with hfs
              subst hfs
              have hname := hall (String.mk acc) (List.mem_cons_self _ _)
              obtain ⟨v, hv⟩ := Option.isSome_iff_exists.1 hname
              obtain ⟨t, htt⟩ := pyFormat_ok_of_fields kw rest none fs' auto ht
                (fun f hff => hall f (List.mem_cons_of_mem _ hff))
              refine ⟨v ++ t, ?_⟩
              rw [pyFormatAux_some_eq, if_pos rfl, if_neg hnm, hv, htt]
      · by_cases hcb : c = '{'
        · subst hcb
          exact Option.noConfusion (show (none : Option (List String)) = some fs from hf)
        · have hf2 : templateFieldsAux rest (some (acc ++ [c])) = some fs := by
            rw [templateFieldsAux_some_eq, if_neg hc, if_neg hcb] at hf
            exact hf
          obtain ⟨t, htt⟩ := pyFormat_ok_of_fields kw rest (some (acc ++ [c])) fs auto hf2 hall
          refine ⟨t, ?_⟩
          rw [pyFormatAux_some_eq, if_neg hc, if_neg hcb]
          exact htt
  | c :: rest, none, fs, auto, hf, hall => by
      by_cases hc1 : c = '{'
      · subst hc1
        cases rest with
        | nil =>
            exact Option.noConfusion (show (none : Option (List String)) = some fs from hf)
        | cons d rest' =>
            by_cases hd : d = '{'
            · subst hd
              have hf2 : templateFieldsAux rest' none = some fs := hf
              obtain ⟨t, htt⟩ := pyFormat_ok_of_fields kw rest' none fs auto hf2 hall
              refine ⟨'{' :: t, ?_⟩
              show (match pyFormatAux [] kw rest' auto none with
                    | .ok t => Except.ok ('{' :: t)
                    | .error e => Except.error e) = Except.ok ('{' :: t)
              rw [htt]
            · have hf2 : templateFieldsAux (d :: rest') (some []) = some fs := by
                have h3 : templateFieldsAux ('{' :: d :: rest') none
                    = if d = '{' then templateFieldsAux rest' none
                      else templateFieldsAux (d :: rest') (some []) := rfl
                rw [h3, if_neg hd] at hf
                exact hf
              obtain ⟨t, htt⟩ :=
                pyFormat_ok_of_fields kw (d :: rest') (some []) fs auto hf2 hall
              refine ⟨t, ?_⟩
              have h4 : pyFormatAux [] kw ('{' :: d :: rest') auto none
                  = if d = '{' then
                      (match pyFormatAux [] kw rest' auto none with
                       | .ok t0 => Except.ok ('{' :: t0)
                       | .error e => Except.error e)
                    else pyFormatAux [] kw (d :: rest') auto (some []) := rfl
              rw [h4, if_neg hd]
              exact htt
      · by_cases hc2 : c = '}'
        · subst hc2
          cases rest with
          | nil =>
              exact Option.noConfusion (show (none : Option (List String)) = some fs from hf)
          | cons d rest' =>
              by_cases hd : d = '}'
              · subst hd
                have hf2 : templateFieldsAux rest' none = some fs := hf
                obtain ⟨t, htt⟩ := pyFormat_ok_of_fields kw rest' none fs auto hf2 hall
                refine ⟨'}' :: t, ?_⟩
                show (match pyFormatAux [] kw rest' auto none with
                      | .ok t => Except.ok ('}' :: t)
                      | .error e => Except.error e) = Except.ok ('}' :: t)
                rw [htt]
              · have hf2 : (none : Option (List String)) = some fs := by
                  have h3 : templateFieldsAux ('}' :: d :: rest') none
                      = if d = '}' then templateFieldsAux rest' none else none := rfl
                  rw [h3, if_neg hd] at hf
                  exact hf
                exact Option.noConfusion hf2
        · have hf2 : templateFieldsAux rest none = some fs := by
            rw [templateFieldsAux_none_eq, if_neg hc1, if_neg hc2] at hf
            exact hf
          obtain ⟨t, htt⟩ := pyFormat_ok_of_fields kw rest none fs auto hf2 hall
          refine ⟨c :: t, ?_⟩
          rw [pyFormatAux_none_eq, if_neg hc1, if_neg hc2, htt]

/-- When a template is well formed with only named fields and some
referenced field is absent from the keyword map, formatting raises
`KeyError` for a missing referenced field. -/
theorem pyFormat_keyError_of_missing (kw : List (String × PyStr)) :
    ∀ (cs : List Char) (mode : Option (List Char)) (fs : List String) (auto : Nat),
      templateFieldsAux cs mode = some fs →
      (∃ f ∈ fs, kw.lookup f = none) →
      ∃ f, f ∈ fs ∧ kw.lookup f = none ∧
        pyFormatAux [] kw cs auto mode = .error (.keyError f)
  | [], none, fs, auto, hf, hmiss => by
      have hfs : ([] : List String) = fs := by
        have hf2 : some ([] : List String) = some fs := hf
        injection hf2
      obtain ⟨f, hfm, _⟩ := hmiss
      rw [← hfs] at hfm
      exact absurd hfm (List.not_mem_nil f)
  | [], some acc, fs, auto, hf, _ =>
      Option.noConfusion (show (none : Option (List String)) = some fs from hf)
  | c :: rest, some acc, fs, auto, hf, hmiss => by
      by_cases hc : c = '}'
      · subst hc
        have hf2 : (if String.mk acc = "" then (none : Option (List String))
            else match templateFieldsAux rest none with
                 | some fs0 => some (String.mk acc :: fs0)
                 | none => none) = some fs := hf
        by_cases hnm : String.mk acc = ""
        · rw [if_pos hnm] at hf2
          exact Option.noConfusion hf2
        · rw [if_neg hnm] at hf2
          cases ht : templateFieldsAux rest none with
          | none =>
              rw [ht] at hf2
              exact Option.noConfusion
                (show (none : Option (List String)) = some fs from hf2)
          | some fs' =>
              rw [ht] at hf2
              have hf3 : some (String.mk acc :: fs') = some fs := hf2
              injection hf3 with hfs
              subst hfs
              cases hlk : kw.lookup (String.mk acc) with
              | none =>
                  refine ⟨String.mk acc, List.mem_cons_self _ _, hlk, ?_⟩
                  rw [pyFormatAux_some_eq, if_pos rfl, if_neg hnm, hlk]
              | some v =>
                  have hmiss' : ∃ f ∈ fs', kw.lookup f = none := by
                    obtain ⟨f, hfm, hfn⟩ := hmiss
                    rcases List.mem_cons.1 hfm with hfe | hfm'
                    · rw [hfe] at hfn
                      rw [hfn] at hlk
                      exact Option.noConfusion hlk
                    · exact ⟨f, hfm', hfn⟩
                  obtain ⟨f, hfm, hfn, herr⟩ :=
                    pyFormat_keyError_of_missing kw rest none fs' auto ht hmiss'
                  refine ⟨f, List.mem_cons_of_mem _ hfm, hfn, ?_⟩
                  rw [pyFormatAux_some_eq, if_pos rfl, if_neg hnm, hlk, herr]
      · by_cases hcb : c = '{'
        · subst hcb
          exact Option.noConfusion (show (none : Option (List String)) = some fs from hf)
        · have hf2 : templateFieldsAux rest (some (acc ++ [c])) = some fs := by
            rw [templateFieldsAux_some_eq, if_neg hc, if_neg hcb] at hf
            exact hf
          obtain ⟨f, hfm, hfn, herr⟩ :=
            pyFormat_keyError_of_missing kw rest (some (acc ++ [c])) fs auto hf2 hmiss
          refine ⟨f, hfm, hfn, ?_⟩
          rw [pyFormatAux_some_eq, if_neg hc, if_neg hcb]
          exact herr
  | c :: rest, none, fs, auto, hf, hmiss => by
      by_cases hc1 : c = '{'
      · subst hc1
        cases rest with
        | nil =>
            exact Option.noConfusion (show (none : Option (List String)) = some fs from hf)
        | cons d rest' =>
            by_cases hd : d = '{'
            · subst hd
              have hf2 : templateFieldsAux rest' none = some fs := hf
              obtain ⟨f, hfm, hfn, herr⟩ :=
                pyFormat_keyError_of_missing kw rest' none fs auto hf2 hmiss
              refine ⟨f, hfm, hfn, ?_⟩
              show (match pyFormatAux [] kw rest' auto none with
                    | .ok t => Except.ok ('{' :: t)
                    | .error e => Except.error e) = Except.error (PyErr.keyError f)
              rw [herr]
            · have hf2 : templateFieldsAux (d :: rest') (some []) = some fs := by
                have h3 : templateFieldsAux ('{' :: d :: rest') none
                    = if d = '{' then templateFieldsAux rest' none
                      else templateFieldsAux (d :: rest') (some []) := rfl
                rw [h3, if_neg hd] at hf
                exact hf
              obtain ⟨f, hfm, hfn, herr⟩ :=
                pyFormat_keyError_of_missing kw (d :: rest') (some []) fs auto hf2 hmiss
              refine ⟨f, hfm, hfn, ?_⟩
              have h4 : pyFormatAux [] kw ('{' :: d :: rest') auto none
                  = if d = '{' then
                      (match pyFormatAux [] kw rest' auto none with
                       | .ok t0 => Except.ok ('{' :: t0)
                       | .error e => Except.error e)
                    else pyFormatAux [] kw (d :: rest') auto (some []) := rfl
              rw [h4, if_neg hd]
              exact herr
      · by_cases hc2 : c = '}'
        · subst hc2
          cases rest with
          | nil =>
              exact Option.noConfusion (show (none : Option (List String)) = some fs from hf)
          | cons d rest' =>
              by_cases hd : d = '}'
              · subst hd
                have hf2 : templateFieldsAux rest' none = some fs := hf
                obtain ⟨f, hfm, hfn, herr⟩ :=
                  pyFormat_keyError_of_missing kw rest' none fs auto hf2 hmiss
                refine ⟨f, hfm, hfn, ?_⟩
                show (match pyFormatAux [] kw rest' auto none with
                      | .ok t => Except.ok ('}' :: t)
                      | .error e => Except.error e) = Except.error (PyErr.keyError f)
                rw [herr]
              · have hf2 : (none : Option (List String)) = some fs := by
                  have h3 : templateFieldsAux ('}' :: d :: rest') none
                      = if d = '}' then templateFieldsAux rest' none else none := rfl
                  rw [h3, if_neg hd] at hf
                  exact hf
                exact Option.noConfusion hf2
        · have hf2 : templateFieldsAux rest none = some fs := by
            rw [templateFieldsAux_none_eq, if_neg hc1, if_neg hc2] at hf
            exact hf
          obtain ⟨f, hfm, hfn, herr⟩ :=
            pyFormat_keyError_of_missing kw rest none fs auto hf2 hmiss
          refine ⟨f, hfm, hfn, ?_⟩
          rw [pyFormatAux_none_eq, if_neg hc1, if_neg hc2, herr]

/-! ### Helper lemmas for the processing strategies -/

/-- When every row renders, the row loop queries once per row, in input
order, and collects the responses in input order. -/
theorem rowLoopDf_ok (tmpl : PyStr) (query : PyStr → PyStr) :
    ∀ rows : List Record,
      (∀ r ∈ rows, exceptIsOk (generate_prompt_df tmpl r) = true) →
      rowLoopDf tmpl query rows
        = (.ok (rows.map (fun r => query (renderedDf tmpl r))), rows.map (renderedDf tmpl))
  | [], _ => rfl
  | r :: rs, h => by
      have hr := h r (List.mem_cons_self r rs)
      cases hg : generate_prompt_df tmpl r with
      | error e => rw [hg] at hr; simp [exceptIsOk] at hr
      | ok p =>
          have hih := rowLoopDf_ok tmpl query rs (fun q hq => h q (List.mem_cons_of_mem r hq))
          have hrd : renderedDf tmpl r = p := by simp [renderedDf, hg]
          simp only [rowLoopDf, hg, hih, hrd, List.map_cons]

/-- The running token total always equals the total estimate of the
running chunk. -/
theorem make_chunks_state_token_sum (b : Int) (prompts : List PyStr) :
    (make_chunks_state b prompts).token
      = ((make_chunks_state b prompts).sub_chunks.map count_tokens).sum := by
  have hstep : ∀ (st : PackState) (done : List PyStr) (p : PyStr), True →
      st.token = (st.sub_chunks.map count_tokens).sum →
      (make_chunks_step b st p).token
        = ((make_chunks_step b st p).sub_chunks.map count_tokens).sum := by
    intro st _ p _ htok
    by_cases hc : ((count_tokens p + st.token : Nat) : Int) ≤ b
    · rw [make_chunks_step_fits b st p hc]
      simp [htok]
    · rw [make_chunks_step_flush b st p hc]
      simp
  exact make_chunks_foldl_inv b (fun _ => True)
    (fun st _ => st.token = (st.sub_chunks.map count_tokens).sum) hstep
    prompts ⟨[], [], 0⟩ [] (fun _ _ => trivial) rfl

/-- Unfolding of `make_chunks_chunks` in terms of the final loop state. -/
theorem make_chunks_chunks_def (prompts : List PyStr) (b : Int) :
    make_chunks_chunks prompts b
      = match (make_chunks_state b prompts).sub_chunks with
        | [] => (make_chunks_state b prompts).chunks
        | _ :: _ => (make_chunks_state b prompts).chunks
            ++ [pyJoinNl (make_chunks_state b prompts).sub_chunks] := rfl

/-! ### Claims -/

/-- C1 (corrected): for every non-empty sequence of prompts none of which
contains a newline character, and every budget at least the maximum
single-prompt estimate, the chunk list computed by `make_chunks` (the
value of its local `chunks`; the function itself returns `None` for want
of a `return` statement, see C9), re-split on newlines and concatenated
in order, reproduces the original prompt sequence exactly.  The
newline-freeness restriction is forced: a prompt containing a newline is
split into several pieces when its chunk is re-split (see the
counterexample). -/
theorem make_chunks_roundtrip_newline_free (prompts : List PyStr) (b : Int)
    (hne : prompts ≠ [])
    (hfit : ∀ p ∈ prompts, (count_tokens p : Int) ≤ b)
    (hnl : ∀ p ∈ prompts, '\n' ∉ p) :
    (make_chunks_chunks prompts b).flatMap pySplitOnNl = prompts := by
  have h0 : packInv1 ⟨[], [], 0⟩ [] := ⟨[], rfl, by simp, by simp, rfl, fun _ => rfl⟩
  have hinv := make_chunks_foldl_inv b (fun p => (count_tokens p : Int) ≤ b) packInv1
    (fun st done p hq hp => packInv1_step b st done p hq hp)
    prompts ⟨[], [], 0⟩ [] hfit h0
  rw [List.nil_append] at hinv
  have hst : prompts.foldl (make_chunks_step b) ⟨[], [], 0⟩ = make_chunks_state b prompts := rfl
  rw [hst] at hinv
  obtain ⟨groups, hchunks, hgne, hflat, htok, hemp⟩ := hinv
  rw [make_chunks_chunks_def]
  cases hs : (make_chunks_state b prompts).sub_chunks with
  | nil => exact absurd (hemp hs) hne
  | cons s ss =>
      rw [hs] at hflat
      show ((make_chunks_state b prompts).chunks ++ [pyJoinNl (s :: ss)]).flatMap pySplitOnNl
        = prompts
      rw [hchunks]
      have hmap : List.map pyJoinNl groups ++ [pyJoinNl (s :: ss)]
          = List.map pyJoinNl (groups ++ [s :: ss]) := by simp
      rw [hmap]
      have hmem : ∀ g ∈ groups ++ [s :: ss], ∀ x ∈ g, x ∈ prompts := by
        intro g hg x hx
        rw [← hflat]
        rcases List.mem_append.1 hg with hg1 | hg2
        · exact List.mem_append.2 (Or.inl (List.mem_flatten.2 ⟨g, hg1, hx⟩))
        · have hgs : g = s :: ss := by simpa using hg2
          exact List.mem_append.2 (Or.inr (hgs ▸ hx))
      have hG1 : ∀ g ∈ groups ++ [s :: ss], g ≠ [] := by
        intro g hg
        rcases List.mem_append.1 hg with hg1 | hg2
        · exact hgne g hg1
        · have hgs : g = s :: ss := by simpa using hg2
          simp [hgs]
      rw [flatMap_split_join (groups ++ [s :: ss]) hG1
        (fun g hg x hx => hnl x (hmem g hg x hx))]
      simpa using hflat

/-- Witness for C1 at a concrete input: three newline-free prompts with
estimates 2, 1, 3 and budget 3 pack into two chunks whose re-split
reproduces the prompts. -/
theorem make_chunks_roundtrip_newline_free_witness :
    (make_chunks_chunks [pys "a b", pys "c", pys "d e f"] 3).flatMap pySplitOnNl
      = [pys "a b", pys "c", pys "d e f"] :=
  make_chunks_roundtrip_newline_free [pys "a b", pys "c", pys "d e f"] 3
    (by decide) (by decide) (by decide)

/-- Counterexample to C1 as stated: the single prompt `"a\nb"` (estimate
2) with budget 2 satisfies the original hypotheses (non-empty input,
budget at least every single-prompt estimate), yet re-splitting the
produced chunk on newlines yields two pieces, not the original prompt. -/
theorem make_chunks_newline_counterexample :
    ([pys "a\nb"] : List PyStr) ≠ [] ∧
    (∀ p ∈ [pys "a\nb"], (count_tokens p : Int) ≤ 2) ∧
    (make_chunks_chunks [pys "a\nb"] 2).flatMap pySplitOnNl ≠ [pys "a\nb"] :=
  ⟨by decide, by decide, by decide⟩

/-- C2 (corrected): for every prompt sequence and positive budget, every
chunk computed by `make_chunks` has token estimate at most the budget
unless it consists of exactly one prompt whose own estimate exceeds the
budget.  The further part of the original claim — that no degenerate
empty chunk is ever emitted — is false: the loop flushes the running
chunk even when it is empty (see the counterexample). -/
theorem make_chunks_budget_invariant (prompts : List PyStr) (b : Int)
    (hb : (0 : Int) < b) :
    ∀ c ∈ make_chunks_chunks prompts b,
      (count_tokens c : Int) ≤ b ∨ ∃ p ∈ prompts, c = p ∧ b < (count_tokens p : Int) := by
  have h0 : packInv2 b ⟨[], [], 0⟩ [] := by
    refine ⟨by simp, rfl, Or.inl ?_⟩
    show ((0 : Nat) : Int) ≤ b
    omega
  have hinv := make_chunks_foldl_inv b (fun _ => True) (packInv2 b)
    (fun st done p _ hp => packInv2_step b st done p hp)
    prompts ⟨[], [], 0⟩ [] (fun _ _ => trivial) h0
  rw [List.nil_append] at hinv
  have hst : prompts.foldl (make_chunks_step b) ⟨[], [], 0⟩ = make_chunks_state b prompts := rfl
  rw [hst] at hinv
  obtain ⟨hchunks, htok, hrun⟩ := hinv
  intro c hcm
  rw [make_chunks_chunks_def] at hcm
  revert hcm
  cases hs : (make_chunks_state b prompts).sub_chunks with
  | nil =>
      intro hcm
      exact hchunks c hcm
  | cons s ss =>
      intro hcm
      have hcm2 : c ∈ (make_chunks_state b prompts).chunks ++ [pyJoinNl (s :: ss)] := hcm
      rcases List.mem_append.1 hcm2 with hold | hnew
      · exact hchunks c hold
      · have hcj : c = pyJoinNl (s :: ss) := by simpa using hnew
        rcases hrun with h1 | ⟨q, hq, hsq, hbq⟩
        · left
          rw [hs] at htok
          rw [hcj, count_tokens_join, ← htok]
          exact h1
        · right
          rw [hs] at hsq
          refine ⟨q, hq, ?_, hbq⟩
          rw [hcj, hsq]
          rfl

/-- Witness for C2 at a concrete input: with prompts of estimates 2 and
4 and budget 3, the oversized chunk is exactly the single oversized
prompt. -/
theorem make_chunks_budget_invariant_witness :
    (count_tokens (pys "c d e f") : Int) ≤ 3 ∨
      ∃ p ∈ [pys "a b", pys "c d e f"], pys "c d e f" = p ∧ 3 < (count_tokens p : Int) :=
  make_chunks_budget_invariant [pys "a b", pys "c d e f"] 3 (by decide)
    (pys "c d e f") (by decide)

/-- Counterexample to C2 as stated: with the single prompt `"a b"`
(estimate 2) and positive budget 1, the loop flushes its initially empty
running chunk, emitting a degenerate empty chunk before the oversized
prompt — contradicting the claim that no empty degenerate chunk is ever
emitted. -/
theorem make_chunks_empty_chunk_counterexample :
    ((0 : Int) < 1) ∧
    make_chunks_chunks [pys "a b"] 1 = [[], pys "a b"] ∧
    ([] : PyStr) ∈ make_chunks_chunks [pys "a b"] 1 :=
  ⟨by decide, by decide, by decide⟩

/-- C3 (code bug): chunked processing never issues a gateway query and
never returns a result list.  On the DataFrame branch, `make_chunks`
returns `None` (missing `return` statement) and iterating it raises
`TypeError`; on the Series branch `make_chunks(prompts)` is called with
one argument instead of two, raising `TypeError`; rendering errors
propagate before either.  The claim that one query is issued per chunk
is therefore unsatisfiable on the code as written. -/
theorem process_in_chunks_always_errors :
    ∀ (tmpl : PyStr) (max_tokens : Int) (query : PyStr → PyStr) (input : PdInput),
      ∃ e : PyErr, process_in_chunks tmpl max_tokens query input = (.error e, []) := by
  intro tmpl mt q input
  cases input with
  | df rows =>
      cases h : renderAllDf tmpl rows with
      | error e => exact ⟨e, by simp [process_in_chunks, h]⟩
      | ok ps =>
          exact ⟨.typeError "NoneType object is not iterable",
            by simp [process_in_chunks, h, make_chunks]⟩
  | srs vals =>
      cases h : renderAllSrs tmpl vals with
      | error e => exact ⟨e, by simp [process_in_chunks, h]⟩
      | ok ps =>
          exact ⟨.typeError "make_chunks missing 1 required positional argument",
            by simp [process_in_chunks, h]⟩

/-- C4 (confirmed): when the rendered rows join to a prompt whose token
estimate exceeds `max_tokens`, one-big-chunk processing raises the
"Total prompt exceeds the maximum token limit" `ValueError` (the spec's
`PromptTooLargeError`) and issues zero gateway queries. -/
theorem process_in_one_big_chunk_oversized_no_query (tmpl : PyStr) (max_tokens : Int)
    (input : PdInput) (prompts : List PyStr)
    (hrender : renderAll tmpl input = .ok prompts)
    (hover : max_tokens < (count_tokens (pyJoinNl prompts) : Int)) :
    process_in_one_big_chunk tmpl max_tokens input
      = (.error (.valueError "Total prompt exceeds the maximum token limit"), []) := by
  have h1 : process_in_one_big_chunk tmpl max_tokens input
      = match renderAll tmpl input with
        | .error e => (.error e, [])
        | .ok formated_rows =>
            if ((count_tokens (pyJoinNl formated_rows) : Nat) : Int) > max_tokens then
              (.error (.valueError "Total prompt exceeds the maximum token limit"), [])
            else (.error (.attributeError "querry"), []) := rfl
  rw [h1, hrender]
  show (if ((count_tokens (pyJoinNl prompts) : Nat) : Int) > max_tokens then
          ((.error (.valueError "Total prompt exceeds the maximum token limit"), [])
            : Except PyErr PyStr × List PyStr)
        else (.error (.attributeError "querry"), []))
      = (.error (.valueError "Total prompt exceeds the maximum token limit"), [])
  rw [if_pos hover]

/-- Witness for C4 at a concrete input: a one-element Series rendering
to a three-word prompt against budget 2. -/
theorem process_in_one_big_chunk_oversized_no_query_witness :
    process_in_one_big_chunk (pys "{}") 2 (.srs [pys "a b c"])
      = (.error (.valueError "Total prompt exceeds the maximum token limit"), []) :=
  process_in_one_big_chunk_oversized_no_query (pys "{}") 2 (.srs [pys "a b c"])
    [pys "a b c"] rfl (by decide)

/-- C5 (code bug): when the joined prompt fits the budget, one-big-chunk
processing executes `return self.querry(prompts)`; the class defines no
attribute `querry` (the method is `query`), so the call raises
`AttributeError` and issues zero gateway queries, instead of issuing
exactly one query and returning its result as the claim states. -/
theorem process_in_one_big_chunk_querry_attr_error (tmpl : PyStr) (max_tokens : Int)
    (input : PdInput) (prompts : List PyStr)
    (hrender : renderAll tmpl input = .ok prompts)
    (hfits : (count_tokens (pyJoinNl prompts) : Int) ≤ max_tokens) :
    process_in_one_big_chunk tmpl max_tokens input
      = (.error (.attributeError "querry"), []) := by
  have h1 : process_in_one_big_chunk tmpl max_tokens input
      = match renderAll tmpl input with
        | .error e => (.error e, [])
        | .ok formated_rows =>
            if ((count_tokens (pyJoinNl formated_rows) : Nat) : Int) > max_tokens then
              (.error (.valueError "Total prompt exceeds the maximum token limit"), [])
            else (.error (.attributeError "querry"), []) := rfl
  rw [h1, hrender]
  show (if ((count_tokens (pyJoinNl prompts) : Nat) : Int) > max_tokens then
          ((.error (.valueError "Total prompt exceeds the maximum token limit"), [])
            : Except PyErr PyStr × List PyStr)
        else (.error (.attributeError "querry"), []))
      = (.error (.attributeError "querry"), [])
  rw [if_neg (not_lt.2 hfits)]

/-- Witness for C5 at a concrete input: a one-element Series rendering
to a three-word prompt against budget 10. -/
theorem process_in_one_big_chunk_querry_attr_error_witness :
    process_in_one_big_chunk (pys "{}") 10 (.srs [pys "a b c"])
      = (.error (.attributeError "querry"), []) :=
  process_in_one_big_chunk_querry_attr_error (pys "{}") 10 (.srs [pys "a b c"])
    [pys "a b c"] rfl (by decide)

/-- C6 (confirmed): on a table-shaped input whose rows all render,
row-by-row processing issues exactly one gateway query per row, in input
order, with the rendered row prompt, and returns the responses in the
same order (one result per row). -/
theorem process_row_by_row_queries_per_row (tmpl : PyStr) (query : PyStr → PyStr)
    (rows : List Record)
    (h : ∀ r ∈ rows, exceptIsOk (generate_prompt_df tmpl r) = true) :
    process_row_by_row tmpl query (.df rows)
      = (.ok (rows.map (fun r => query (renderedDf tmpl r))), rows.map (renderedDf tmpl))
    ∧ (process_row_by_row tmpl query (.df rows)).2.length = rows.length := by
  have heq := rowLoopDf_ok tmpl query rows h
  have heq2 : process_row_by_row tmpl query (.df rows) = rowLoopDf tmpl query rows := rfl
  constructor
  · rw [heq2, heq]
  · rw [heq2, heq]
    simp

/-- Witness for C6 at a concrete 3-row table: three queries, in row
order, one result per row. -/
theorem process_row_by_row_queries_per_row_witness :
    process_row_by_row (pys "square of {salary}") (fun p => p)
        (.df [[("salary", pys "2")], [("salary", pys "3")], [("salary", pys "4")]])
      = (.ok [pys "square of 2", pys "square of 3", pys "square of 4"],
         [pys "square of 2", pys "square of 3", pys "square of 4"]) :=
  Eq.trans
    (process_row_by_row_queries_per_row (pys "square of {salary}") (fun p => p)
      [[("salary", pys "2")], [("salary", pys "3")], [("salary", pys "4")]]
      (by decide)).1
    rfl

/-- C7 (code bug): with the `"huggingface"` backend and no model
identifier, every `query` call raises `AttributeError` for the attribute
`hf_pipeline`, because `__init__` stores the pipeline under the
misspelled name `hf_pipline` and the guard in `_query_huggingface` reads
`hf_pipeline`; the "pipeline is not initialized" `ValueError` the claim
describes (the spec's `BackendNotInitializedError`) is unreachable. -/
theorem query_huggingface_no_model_attr_error (api_key tmpl : PyStr) (max_tokens : Int)
    (openaiOracle hfOracle : PyStr → PyStr) (prompt : PyStr) :
    LLMProvider_query (LLMProvider_init "huggingface" api_key tmpl max_tokens none)
        openaiOracle hfOracle prompt
      = (.error (.attributeError "hf_pipeline"), []) := rfl

/-- C8 (confirmed): for a well-formed template whose replacement fields
are the named fields `fs`, rendering a record missing a referenced field
fails with `KeyError` on a missing referenced field (the spec's
`MissingFieldError`), and rendering a record containing every referenced
field succeeds. -/
theorem generate_prompt_df_missing_field (tmpl : PyStr) (kwargs : Record)
    (fs : List String) (htf : templateFields tmpl = some fs) :
    ((∃ f ∈ fs, kwargs.lookup f = none) →
      ∃ f, f ∈ fs ∧ kwargs.lookup f = none ∧
        generate_prompt_df tmpl kwargs = .error (.keyError f)) ∧
    ((∀ f ∈ fs, (kwargs.lookup f).isSome = true) →
      ∃ s, generate_prompt_df tmpl kwargs = .ok s) :=
  ⟨fun hmiss => pyFormat_keyError_of_missing kwargs tmpl none fs 0 htf hmiss,
   fun hall => pyFormat_ok_of_fields kwargs tmpl none fs 0 htf hall⟩

/-- Witness for C8 at a concrete template with fields `salary` and
`bonus`: a record lacking `bonus` fails with `KeyError`, a record with
both fields renders. -/
theorem generate_prompt_df_missing_field_witness :
    (∃ f, f ∈ ["salary", "bonus"] ∧
      (([("salary", pys "5")] : Record).lookup f = none) ∧
      generate_prompt_df (pys "pay {salary} plus {bonus}") [("salary", pys "5")]
        = .error (.keyError f)) ∧
    (∃ s, generate_prompt_df (pys "pay {salary} plus {bonus}")
        [("salary", pys "5"), ("bonus", pys "7")] = .ok s) :=
  ⟨(generate_prompt_df_missing_field (pys "pay {salary} plus {bonus}")
      [("salary", pys "5")] ["salary", "bonus"] (by decide)).1 (by decide),
   (generate_prompt_df_missing_field (pys "pay {salary} plus {bonus}")
      [("salary", pys "5"), ("bonus", pys "7")] ["salary", "bonus"] (by decide)).2
      (by decide)⟩

/-- C9 (code bug): on the empty prompt list the chunk list `make_chunks`
computes is `[]` as the claim states, but the function has no `return`
statement, so the call itself evaluates to `None`, not to the empty
list. -/
theorem make_chunks_empty_input_missing_return :
    ∀ b : Int, make_chunks [] b = none ∧ make_chunks_chunks [] b = [] :=
  fun _ => ⟨rfl, rfl⟩

/-- C10 (confirmed): the token count of a newline-join is the sum of the
token counts of the parts, and consequently the running token total
maintained by the `make_chunks` loop equals the actual token estimate of
the joined running chunk at every point of the run. -/
theorem count_tokens_join_and_running_total :
    (∀ xs : List PyStr, count_tokens (pyJoinNl xs) = (xs.map count_tokens).sum) ∧
    (∀ (b : Int) (prompts : List PyStr),
      (make_chunks_state b prompts).token
        = count_tokens (pyJoinNl (make_chunks_state b prompts).sub_chunks)) :=
  ⟨count_tokens_join, fun b prompts => by
    rw [count_tokens_join, make_chunks_state_token_sum]⟩
